import Mathlib

/-!
Verification of the branch reconciliation engine of git-hubsync
(`src/hubsync.rs` and `src/git.rs`), as a shallow embedding.

Modelling conventions:
* `Oid` is a natural number standing for a commit id.
* A `Branch` handle is a snapshot `(name, tip)`: the reference name (`shorthand`)
  plus the commit id the reference pointed at when the handle was obtained.
  Reference names are modelled as `String`; name-conversion failures (the
  `ostr!` macro / `shorthand()` returning `None` on non-UTF8 names) therefore
  cannot occur in the model.
* The libgit2 facade (configuration lookups, remote-tracking branches, the
  commit graph) is a record of pure functions, `GitState`.  It is static during
  a run: the source fetches once before the loop and never changes remote
  state afterwards, so `fetch` is modelled as a no-op on `GitState`.
* The mutable repository (local branch refs and HEAD) is `RepoState`; local
  branch tips live in an association list keyed by branch name.
* Fallible operations return `Except G2Error` mirroring `Result<_, git2::Error>`;
  `git2::Error` is modelled by its `(class, code)` pair, which is all the
  source ever inspects.
-/

namespace Hubsync

abbrev Oid := Nat

/-- A branch handle: reference (short) name plus the commit id it pointed at
when the handle was obtained (git2 `Branch`, which snapshots its reference). -/
structure Branch where
  name : String
  tip : Oid
  deriving DecidableEq, Repr

/-- A remote handle; the source only ever inspects `name()`. -/
structure Remote where
  name : String
  deriving DecidableEq, Repr

/-- git2 `ErrorClass` values distinguished by the source, plus a catch-all. -/
inductive ErrorClass where
  | Reference
  | Config
  | Invalid
  | Net
  deriving DecidableEq, Repr

/-- git2 `ErrorCode` values distinguished by the source, plus a catch-all. -/
inductive ErrorCode where
  | NotFound
  | GenericError
  | Auth
  deriving DecidableEq, Repr

/-- A `git2::Error`, reduced to the `(class, code)` pair the source inspects. -/
structure G2Error where
  cls : ErrorClass
  code : ErrorCode
  deriving DecidableEq, Repr

/-- The static libgit2 facade: configuration, remote-tracking branches and the
commit graph, all unchanged during a run (the single fetch happens before the
loop and is modelled as already folded into this state). -/
structure GitState where
  /-- `branch.upstream()`: the configured upstream handle of a local branch,
  `none` on any failure (the source collapses the error with `if let Ok`). -/
  upstreamOf : String → Option Branch
  /-- `config.get_string("branch.<name>.pushremote")`. -/
  pushremote : String → Except G2Error String
  /-- `repo.find_branch(name, BranchType::Remote)`. -/
  findRemoteBranch : String → Except G2Error Branch
  /-- `repo.branch_upstream_remote(refname)`, `none` on failure (the source
  collapses the error with `if let Ok`). -/
  branchUpstreamRemote : String → Option String
  /-- `config.get_string("remote.pushdefault")`. -/
  pushdefault : Except G2Error String
  /-- `repo.remotes()`: the configured remote names. -/
  remotes : List String
  /-- `repo.find_remote(name)`. -/
  findRemote : String → Except G2Error Remote
  /-- `repo.graph_descendant_of(commit, ancestor)`. -/
  descendantOf : Oid → Oid → Bool
  /-- `remote.default_branch()`: the advertised default ref, per remote name. -/
  remoteDefaultRef : String → Except G2Error String

/-- `prefix_stripped` (git.rs): `s.strip_prefix(p)` when `p` is a prefix of
`s`, otherwise `s` unchanged.  Implemented on the character lists so that it
evaluates inside the kernel. -/
def prefix_stripped (s p : String) : String :=
  if p.data.isPrefixOf s.data then String.mk (s.data.drop p.data.length) else s

/-- `Range` (git.rs): a pair of commit ids, `beg` from the local branch tip and
`end` from the upstream branch tip.  (`end` is a Lean keyword, hence `end_`.) -/
structure Range where
  beg : Oid
  end_ : Oid
  deriving DecidableEq, Repr

/-- `Range::beg_oid`. -/
def Range.beg_oid (r : Range) : Oid :=
  r.beg

/-- `Range::is_identical`: `beg == end`. -/
def Range.is_identical (r : Range) : Bool :=
  r.beg == r.end_

/-- `Range::is_ancestor`: `repo.graph_descendant_of(end, beg)`.  The commit
graph lives in `GitState`, passed explicitly instead of the `repo` field. -/
def Range.is_ancestor (g : GitState) (r : Range) : Bool :=
  g.descendantOf r.end_ r.beg

/-- `Git::new_range`: tips are read from the two handles
(`peel_to_commit` on each reference). -/
def Git.new_range (local_ upstream : Branch) : Range :=
  ⟨local_.tip, upstream.tip⟩

/-- `is_branch_same` (git.rs): compares the two handles by `name_bytes()`
equality only. -/
def is_branch_same (b1 b2 : Branch) : Bool :=
  b1.name == b2.name

/-- `Git::upstream` (git.rs): prefer `branch.upstream()`; on failure fall back
to the `branch.<name>.pushremote` config joined with the branch's short name
to find the same-named remote-tracking branch.  Errors of the two fallback
steps propagate. -/
def Git.upstream (g : GitState) (branch : Branch) : Except G2Error Branch :=
  match g.upstreamOf branch.name with
  | some upstream => .ok upstream
  | none =>
    match g.pushremote branch.name with
    | .error e => .error e
    | .ok remote_name => g.findRemoteBranch (remote_name ++ "/" ++ branch.name)

/-- `Git::remote` (git.rs): `branch_upstream_remote`, else
`branch.<name>.pushremote`, else `remote.pushdefault` (whose error
propagates); then `find_remote` on the chosen name. -/
def Git.remote (g : GitState) (branch : Branch) : Except G2Error Remote :=
  match (match g.branchUpstreamRemote branch.name with
         | some n => Except.ok n
         | none =>
           match g.pushremote branch.name with
           | .ok n => Except.ok n
           | .error _ => g.pushdefault) with
  | .ok name => g.findRemote name
  | .error e => .error e

/-- `Git::only_one_remote` (git.rs): `some` of the single configured remote
when exactly one exists, `none` otherwise. -/
def Git.only_one_remote (g : GitState) : Except G2Error (Option Remote) :=
  match g.remotes with
  | [n] =>
    match g.findRemote n with
    | .ok r => .ok (some r)
    | .error e => .error e
  | _ => .ok none

/-- `BranchAction` (hubsync.rs). -/
inductive BranchAction where
  | UpToDate
  | Merge (upstream : Branch) (oid : Oid)
  | UpdateRef (upstream : Branch) (oid : Oid)
  | Unpushed
  | CheckoutAndDelete
  | NoDefault
  | Delete
  | Unmerged
  deriving DecidableEq, Repr

/-- `find_branch_action` (hubsync.rs 181-226). -/
def find_branch_action (g : GitState) (branch current_branch remote_default_branch : Branch)
    (odefault_branch : Option Branch) : Except G2Error BranchAction :=
  match Git.upstream g branch with
  | .ok upstream =>
    let range := Git.new_range branch upstream
    if range.is_identical then
      .ok .UpToDate
    else if range.is_ancestor g then
      if is_branch_same branch current_branch then
        .ok (.Merge upstream range.beg_oid)
      else
        .ok (.UpdateRef upstream range.beg_oid)
    else
      .ok .Unpushed
  | .error e =>
    if e.cls = .Reference ∧ e.code = .NotFound ∨ e.cls = .Config ∧ e.code = .NotFound then
      let range := Git.new_range branch remote_default_branch
      if range.is_ancestor g then
        if is_branch_same branch current_branch then
          if odefault_branch.isSome then
            .ok .CheckoutAndDelete
          else
            .ok .NoDefault
        else
          .ok .Delete
      else
        .ok .Unmerged
    else
      .error e

/-! ## The mutable repository and the orchestrator (hubsync.rs 39-179) -/

/-- Local branch refs: name-to-tip association list.  A name not in the list
is a branch that does not exist. -/
def lookupTip : List (String × Oid) → String → Option Oid
  | [], _ => none
  | (m, o) :: rest, n => if m = n then some o else lookupTip rest n

/-- Repoint an existing ref (`Reference::set_target`); absent names unchanged. -/
def setTipList : List (String × Oid) → String → Oid → List (String × Oid)
  | [], _, _ => []
  | (m, o) :: rest, n, o2 =>
    if m = n then (m, o2) :: rest else (m, o) :: setTipList rest n o2

/-- Remove a ref (`Branch::delete`). -/
def deleteTip : List (String × Oid) → String → List (String × Oid)
  | [], _ => []
  | (m, o) :: rest, n =>
    if m = n then deleteTip rest n else (m, o) :: deleteTip rest n

/-- The mutable repository: local branch refs and the name HEAD points at.
(The working tree is not modelled; `checkout_tree` has no observable effect
here.  A detached HEAD is fatal at startup in the source and is not modelled.) -/
structure RepoState where
  tips : List (String × Oid)
  head : String
  deriving DecidableEq, Repr

def RepoState.lookup (r : RepoState) (n : String) : Option Oid :=
  lookupTip r.tips n

def RepoState.setTip (r : RepoState) (n : String) (o : Oid) : RepoState :=
  ⟨setTipList r.tips n o, r.head⟩

def RepoState.deleteBranch (r : RepoState) (n : String) : RepoState :=
  ⟨deleteTip r.tips n, r.head⟩

/-- `Git::checkout` (git.rs): `set_head` to the branch's ref name (the
working-tree update by `checkout_tree` is not modelled). -/
def RepoState.checkout (r : RepoState) (n : String) : RepoState :=
  ⟨r.tips, n⟩

/-- `Git::current_branch` (git.rs): wrap the HEAD reference as a branch handle. -/
def Git.current_branch (repo : RepoState) : Except G2Error Branch :=
  match repo.lookup repo.head with
  | some tip => .ok ⟨repo.head, tip⟩
  | none => .error ⟨.Reference, .NotFound⟩

/-- `Git::local_branches` (git.rs): the branch handles, snapshotted in
enumeration order. -/
def Git.local_branches (repo : RepoState) : List Branch :=
  repo.tips.map (fun p => ⟨p.1, p.2⟩)

/-- `Git::update_ref` (git.rs 230-245): repoint `branch`'s ref at the remote
branch's tip and return the freshly wrapped (post-update) handle. -/
def Git.update_ref (repo : RepoState) (branch remote_branch : Branch) :
    RepoState × Branch :=
  (repo.setTip branch.name remote_branch.tip, ⟨branch.name, remote_branch.tip⟩)

/-- `Git::fastforward` (git.rs): `checkout_tree` (working tree, unmodelled)
followed by `update_ref`; only the repo effect is observable here. -/
def Git.fastforward (repo : RepoState) (branch upstream : Branch) : RepoState :=
  (Git.update_ref repo branch upstream).1

/-- `Git::branch_and_remote` (git.rs): find the local branch by name, then
resolve its remote. -/
def Git.branch_and_remote (g : GitState) (repo : RepoState) (name : String) :
    Except G2Error (Branch × Remote) :=
  match repo.lookup name with
  | none => .error ⟨.Reference, .NotFound⟩
  | some tip =>
    match Git.remote g ⟨name, tip⟩ with
    | .ok r => .ok (⟨name, tip⟩, r)
    | .error e => .error e

/-- The local-branch scan inside `Git::default_branch` (git.rs 86-93): the
first local branch whose configured upstream is named `default_name`, returned
as `(upstream handle, local handle)`. -/
def findDefaultCandidate (g : GitState) (default_name : String) :
    List (String × Oid) → Option (Branch × Branch)
  | [] => none
  | (m, o) :: rest =>
    match g.upstreamOf m with
    | some u =>
      if u.name = default_name then some (u, ⟨m, o⟩)
      else findDefaultCandidate g default_name rest
    | none => findDefaultCandidate g default_name rest

/-- `Git::default_branch` (git.rs 75-96): compute `<remote>/<advertised
default>`, prefer a local branch upstream-linked to it, else the bare
remote-tracking ref with no local candidate. -/
def Git.default_branch (g : GitState) (repo : RepoState) (remote : Remote) :
    Except G2Error (Branch × Option Branch) :=
  match g.remoteDefaultRef remote.name with
  | .error e => .error e
  | .ok default_ref =>
    let default_name := remote.name ++ "/" ++ prefix_stripped default_ref "refs/heads/"
    match findDefaultCandidate g default_name repo.tips with
    | some (u, b) => .ok (u, some b)
    | none =>
      match g.findRemoteBranch default_name with
      | .ok u => .ok (u, none)
      | .error e => .error e

/-- `find_default_remote` (hubsync.rs 228-235). -/
def find_default_remote (g : GitState) (repo : RepoState) : Except G2Error Remote :=
  match Git.only_one_remote g with
  | .error e => .error e
  | .ok (some r) => .ok r
  | .ok none =>
    match Git.current_branch repo with
    | .error e => .error e
    | .ok branch => Git.remote g branch

/-- The remote filter of the loop (hubsync.rs 89-97), as a positive test:
a branch is processed iff its resolved remote is the default remote or the
alternate remote. -/
def passFilter (default_remote : Remote) (alternate_remote : Option Remote)
    (r : Remote) : Bool :=
  r.name == default_remote.name ||
    (match alternate_remote with
     | some a => r.name == a.name
     | none => false)

/-- The evolving orchestrator state of `hubsync` (hubsync.rs 43-44, 50). -/
structure OrchState where
  repo : RepoState
  current_branch : Branch
  odefault_branch : Option Branch
  deriving DecidableEq, Repr

/-- One iteration of the `hubsync` loop (hubsync.rs 75-166) on the snapshot
handle `b`: resolve the branch's remote (skipping on `Config`/`NotFound`,
aborting on other errors), apply the remote filter, classify, and execute the
resulting action. -/
def hubsync_step (g : GitState) (default_remote : Remote)
    (alternate_remote : Option Remote) (remote_default_branch : Branch)
    (st : OrchState) (b : Branch) : Except G2Error OrchState :=
  match Git.remote g b with
  | .error e =>
    if e.cls = .Config ∧ e.code = .NotFound then .ok st else .error e
  | .ok remote =>
    if passFilter default_remote alternate_remote remote then
      match find_branch_action g b st.current_branch remote_default_branch
          st.odefault_branch with
      | .error e => .error e
      | .ok action =>
        match action with
        | .UpToDate => .ok st
        | .Merge upstream _ =>
          .ok ⟨Git.fastforward st.repo b upstream, st.current_branch, st.odefault_branch⟩
        | .UpdateRef upstream _ =>
          let ru := Git.update_ref st.repo b upstream
          let odb :=
            match st.odefault_branch with
            | some default_branch =>
              if is_branch_same b default_branch then some ru.2
              else some default_branch
            | none => none
          .ok ⟨ru.1, st.current_branch, odb⟩
        | .Unpushed => .ok st
        | .Unmerged => .ok st
        | .CheckoutAndDelete =>
          match st.odefault_branch with
          | some default_branch =>
            .ok ⟨(st.repo.checkout default_branch.name).deleteBranch b.name,
                 default_branch, none⟩
          | none => .ok ⟨st.repo.deleteBranch b.name, st.current_branch, none⟩
        | .Delete => .ok ⟨st.repo.deleteBranch b.name, st.current_branch, st.odefault_branch⟩
        | .NoDefault => .ok st
    else
      .ok st

/-- The `hubsync` loop folded over the pre-collected branch handles. -/
def hubsync_loop (g : GitState) (default_remote : Remote)
    (alternate_remote : Option Remote) (remote_default_branch : Branch) :
    List Branch → OrchState → Except G2Error OrchState
  | [], st => .ok st
  | b :: bs, st =>
    match hubsync_step g default_remote alternate_remote remote_default_branch st b with
    | .error e => .error e
    | .ok st2 => hubsync_loop g default_remote alternate_remote remote_default_branch bs st2

/-- `hubsync` (hubsync.rs 39-168): setup (current branch, default remote,
fetch — a no-op here —, remote default branch, `main`/`master` fallback) and
then the loop; returns the final repository state. -/
def hubsync (g : GitState) (repo0 : RepoState) : Except G2Error RepoState :=
  match Git.current_branch repo0 with
  | .error e => .error e
  | .ok current0 =>
    match find_default_remote g repo0 with
    | .error e => .error e
    | .ok default_remote =>
      match Git.default_branch g repo0 default_remote with
      | .error e => .error e
      | .ok (remote_default_branch, odb0) =>
        let fb :=
          match odb0 with
          | some b => (some b, none)
          | none =>
            match Git.branch_and_remote g repo0 "main" with
            | .ok (b, r) => (some b, some r)
            | .error _ =>
              match Git.branch_and_remote g repo0 "master" with
              | .ok (b, r) => (some b, some r)
              | .error _ => (none, none)
        match hubsync_loop g default_remote fb.2 remote_default_branch
            (Git.local_branches repo0) ⟨repo0, current0, fb.1⟩ with
        | .error e => .error e
        | .ok st => .ok st.repo

/-! ## General classification equations (helper lemmas) -/

/-- When the upstream link resolves, `find_branch_action` is the
identity/ancestry/current-branch decision tree of hubsync.rs 189-201. -/
theorem find_action_ok_eq (g : GitState) (b cur rdb : Branch) (odb : Option Branch)
    (u : Branch) (hup : Git.upstream g b = .ok u) :
    find_branch_action g b cur rdb odb =
      (if b.tip == u.tip then .ok .UpToDate
       else if g.descendantOf u.tip b.tip then
         if is_branch_same b cur then .ok (.Merge u b.tip) else .ok (.UpdateRef u b.tip)
       else .ok .Unpushed) := by
  unfold find_branch_action
  rw [hup]
  rfl

/-- When the upstream link fails with a routed error kind, `find_branch_action`
is the ancestry/current-branch/candidate decision tree of hubsync.rs 207-220. -/
theorem find_action_error_eq (g : GitState) (b cur rdb : Branch) (odb : Option Branch)
    (e : G2Error) (hup : Git.upstream g b = .error e)
    (hroute : e.cls = .Reference ∧ e.code = .NotFound ∨ e.cls = .Config ∧ e.code = .NotFound) :
    find_branch_action g b cur rdb odb =
      (if g.descendantOf rdb.tip b.tip then
         if is_branch_same b cur then
           if odb.isSome then .ok .CheckoutAndDelete else .ok .NoDefault
         else .ok .Delete
       else .ok .Unmerged) := by
  unfold find_branch_action
  rw [hup]
  dsimp only
  rw [if_pos hroute]
  rfl

/-- When the upstream link fails with any unrouted error kind,
`find_branch_action` propagates the error (hubsync.rs 221-223). -/
theorem find_action_error_hard (g : GitState) (b cur rdb : Branch) (odb : Option Branch)
    (e : G2Error) (hup : Git.upstream g b = .error e)
    (hroute : ¬(e.cls = .Reference ∧ e.code = .NotFound ∨ e.cls = .Config ∧ e.code = .NotFound)) :
    find_branch_action g b cur rdb odb = .error e := by
  unfold find_branch_action
  rw [hup]
  dsimp only
  rw [if_neg hroute]

/-- In the no-upstream branch of the classifier, every routed error leads to
one of the four outcomes `CheckoutAndDelete`, `NoDefault`, `Delete`,
`Unmerged`. -/
theorem find_action_error_four (g : GitState) (b cur rdb : Branch) (odb : Option Branch)
    (e : G2Error) (hup : Git.upstream g b = .error e)
    (hroute : e.cls = .Reference ∧ e.code = .NotFound ∨ e.cls = .Config ∧ e.code = .NotFound) :
    ∃ a, find_branch_action g b cur rdb odb = .ok a ∧
      (a = .CheckoutAndDelete ∨ a = .NoDefault ∨ a = .Delete ∨ a = .Unmerged) := by
  rw [find_action_error_eq g b cur rdb odb e hup hroute]
  by_cases h1 : g.descendantOf rdb.tip b.tip = true <;>
    by_cases h2 : is_branch_same b cur = true <;>
    by_cases h3 : odb.isSome = true <;>
    simp [h1, h2, h3]

/-- `Git::remote` and `Git::upstream` read only the branch's name, never its
tip. -/
theorem Git.remote_name_only (g : GitState) (b1 b2 : Branch) (h : b1.name = b2.name) :
    Git.remote g b1 = Git.remote g b2 := by
  simp only [Git.remote, h]

theorem Git.upstream_name_only (g : GitState) (b1 b2 : Branch) (h : b1.name = b2.name) :
    Git.upstream g b1 = Git.upstream g b2 := by
  simp only [Git.upstream, h]

/-! ## Shared concrete example states (used by witnesses) -/

def exGit : GitState where
  upstreamOf := fun n => if n = "topic" then some ⟨"origin/topic", 5⟩ else none
  pushremote := fun n =>
    if n = "pr" then .ok "origin"
    else if n = "bad" then .error ⟨.Net, .GenericError⟩
    else .error ⟨.Config, .NotFound⟩
  findRemoteBranch := fun n =>
    if n = "origin/pr" then .ok ⟨"origin/pr", 7⟩ else .error ⟨.Reference, .NotFound⟩
  branchUpstreamRemote := fun n => if n = "topic" then some "origin" else none
  pushdefault := .ok "origin"
  remotes := ["origin"]
  findRemote := fun n => if n = "origin" then .ok ⟨"origin"⟩ else .error ⟨.Config, .NotFound⟩
  descendantOf := fun a b => a == 5 && b == 3
  remoteDefaultRef := fun _ => .ok "refs/heads/master"

def exGitMulti : GitState :=
  { exGit with remotes := ["origin", "github"] }

def exRepo : RepoState :=
  ⟨[("topic", 3)], "topic"⟩

/-! ## Claims about the classifier -/

/-- C1: for a branch with no resolvable upstream/push-remote link (a routed
resolution error), the classifier's outcome is exactly the four-case table
over (ancestry to the remote default tip, current-branch identity,
candidate availability): ancestor & current & candidate ↦ CheckoutAndDelete;
ancestor & current & no candidate ↦ NoDefault; ancestor & not current ↦
Delete; not ancestor ↦ Unmerged.  No fifth outcome is reachable. -/
theorem c1_no_upstream_classification (g : GitState) (b cur rdb : Branch)
    (odb : Option Branch) (e : G2Error) (hup : Git.upstream g b = .error e)
    (hroute : e.cls = .Reference ∧ e.code = .NotFound ∨ e.cls = .Config ∧ e.code = .NotFound) :
    find_branch_action g b cur rdb odb =
      .ok (if g.descendantOf rdb.tip b.tip then
             if is_branch_same b cur then
               if odb.isSome then .CheckoutAndDelete else .NoDefault
             else .Delete
           else .Unmerged) := by
  rw [find_action_error_eq g b cur rdb odb e hup hroute]
  by_cases h1 : g.descendantOf rdb.tip b.tip = true <;>
    by_cases h2 : is_branch_same b cur = true <;>
    by_cases h3 : odb.isSome = true <;>
    simp [h1, h2, h3]

theorem c1_witness :
    Git.upstream exGit ⟨"zed", 3⟩ = .error ⟨.Config, .NotFound⟩ ∧
    find_branch_action exGit ⟨"zed", 3⟩ ⟨"zed", 3⟩ ⟨"origin/master", 5⟩
      (some ⟨"master", 4⟩) = .ok .CheckoutAndDelete :=
  ⟨rfl,
   (c1_no_upstream_classification exGit ⟨"zed", 3⟩ ⟨"zed", 3⟩ ⟨"origin/master", 5⟩
      (some ⟨"master", 4⟩) ⟨.Config, .NotFound⟩ rfl (Or.inr ⟨rfl, rfl⟩)).trans rfl⟩

/-- C2: for a branch whose upstream resolves, with distinct tips and the
branch tip an ancestor of the upstream tip, the classifier returns `Merge`
exactly when the branch is the current branch and `UpdateRef` otherwise; in
both cases the carried prior tip is the `Range`'s `beg` commit, the pre-update
tip of the branch. -/
theorem c2_ancestor_merge_or_update (g : GitState) (b cur rdb : Branch)
    (odb : Option Branch) (u : Branch) (hup : Git.upstream g b = .ok u)
    (hne : b.tip ≠ u.tip) (hanc : g.descendantOf u.tip b.tip = true) :
    (is_branch_same b cur = true →
      find_branch_action g b cur rdb odb = .ok (.Merge u (Git.new_range b u).beg_oid)) ∧
    (is_branch_same b cur = false →
      find_branch_action g b cur rdb odb = .ok (.UpdateRef u (Git.new_range b u).beg_oid)) ∧
    (Git.new_range b u).beg_oid = b.tip := by
  refine ⟨?_, ?_, rfl⟩ <;> intro hsame <;>
    rw [find_action_ok_eq g b cur rdb odb u hup] <;>
    simp [hne, hanc, hsame, Git.new_range, Range.beg_oid]

theorem c2_witness :
    (3 : Oid) ≠ 5 ∧ exGit.descendantOf 5 3 = true ∧ is_branch_same ⟨"topic", 3⟩ ⟨"topic", 3⟩ = true ∧
    find_branch_action exGit ⟨"topic", 3⟩ ⟨"topic", 3⟩ ⟨"origin/master", 9⟩ none =
      .ok (.Merge ⟨"origin/topic", 5⟩ 3) :=
  ⟨by decide, rfl, rfl,
   (c2_ancestor_merge_or_update exGit ⟨"topic", 3⟩ ⟨"topic", 3⟩ ⟨"origin/master", 9⟩ none
      ⟨"origin/topic", 5⟩ rfl (by decide) rfl).1 rfl⟩

/-- C3: for a branch whose upstream resolves with equal tips, the classifier
returns `UpToDate` regardless of current-branch identity and regardless of the
graph's ancestry relation (equal tips short-circuit at the identity test,
which is performed before the ancestry test, so `Merge`/`UpdateRef` are
unreachable). -/
theorem c3_identical_up_to_date (g : GitState) (b cur rdb : Branch)
    (odb : Option Branch) (u : Branch) (hup : Git.upstream g b = .ok u)
    (heq : b.tip = u.tip) :
    find_branch_action g b cur rdb odb = .ok .UpToDate := by
  rw [find_action_ok_eq g b cur rdb odb u hup]
  simp [heq]

theorem c3_witness :
    (⟨"topic", 5⟩ : Branch).tip = (⟨"origin/topic", 5⟩ : Branch).tip ∧
    find_branch_action exGit ⟨"topic", 5⟩ ⟨"elsewhere", 1⟩ ⟨"origin/master", 9⟩ none =
      .ok .UpToDate :=
  ⟨rfl,
   c3_identical_up_to_date exGit ⟨"topic", 5⟩ ⟨"elsewhere", 1⟩ ⟨"origin/master", 9⟩ none
     ⟨"origin/topic", 5⟩ rfl rfl⟩

/-- C4: upstream-link resolution prefers the configured upstream, falls back
to the push-remote name joined with the branch's short name, and a resolution
failure routes to the no-upstream half of the table exactly when its kind is
reference-not-found or configuration-key-not-found; every other failure is
returned as a hard error, aborting classification. -/
theorem c4_upstream_resolution_and_routing (g : GitState) (b cur rdb : Branch)
    (odb : Option Branch) :
    (∀ u, g.upstreamOf b.name = some u → Git.upstream g b = .ok u) ∧
    (g.upstreamOf b.name = none → ∀ rn, g.pushremote b.name = .ok rn →
      Git.upstream g b = g.findRemoteBranch (rn ++ "/" ++ b.name)) ∧
    (∀ e, Git.upstream g b = .error e →
      ((e.cls = .Reference ∧ e.code = .NotFound ∨ e.cls = .Config ∧ e.code = .NotFound) →
        ∃ a, find_branch_action g b cur rdb odb = .ok a ∧
          (a = .CheckoutAndDelete ∨ a = .NoDefault ∨ a = .Delete ∨ a = .Unmerged)) ∧
      (¬(e.cls = .Reference ∧ e.code = .NotFound ∨ e.cls = .Config ∧ e.code = .NotFound) →
        find_branch_action g b cur rdb odb = .error e)) := by
  refine ⟨?_, ?_, ?_⟩
  · intro u hu
    simp [Git.upstream, hu]
  · intro hnone rn hrn
    simp [Git.upstream, hnone, hrn]
  · intro e he
    exact ⟨fun hroute => find_action_error_four g b cur rdb odb e he hroute,
           fun hroute => find_action_error_hard g b cur rdb odb e he hroute⟩

theorem c4_witness :
    Git.upstream exGit ⟨"pr", 2⟩ = .ok ⟨"origin/pr", 7⟩ ∧
    find_branch_action exGit ⟨"zed", 3⟩ ⟨"other", 1⟩ ⟨"origin/master", 5⟩ none = .ok .Delete ∧
    find_branch_action exGit ⟨"bad", 3⟩ ⟨"other", 1⟩ ⟨"origin/master", 5⟩ none =
      .error ⟨.Net, .GenericError⟩ := by
  refine ⟨?_, ?_, ?_⟩
  · exact ((c4_upstream_resolution_and_routing exGit ⟨"pr", 2⟩ ⟨"other", 1⟩
      ⟨"origin/master", 5⟩ none).2.1 rfl "origin" rfl).trans rfl
  · have h := ((c4_upstream_resolution_and_routing exGit ⟨"zed", 3⟩ ⟨"other", 1⟩
      ⟨"origin/master", 5⟩ none).2.2 ⟨.Config, .NotFound⟩ rfl).1 (Or.inr ⟨rfl, rfl⟩)
    obtain ⟨a, ha, _⟩ := h
    have : a = .Delete := by
      have := ha.symm.trans (rfl : find_branch_action exGit ⟨"zed", 3⟩ ⟨"other", 1⟩
        ⟨"origin/master", 5⟩ none = .ok .Delete)
      exact (Except.ok.injEq _ _).mp this
    exact this ▸ ha
  · exact ((c4_upstream_resolution_and_routing exGit ⟨"bad", 3⟩ ⟨"other", 1⟩
      ⟨"origin/master", 5⟩ none).2.2 ⟨.Net, .GenericError⟩ rfl).2 (by decide)

/-- C9 (implicit): `Git::remote` tries, in order, the branch's configured
upstream remote, the branch-specific push-remote key, and the global
`remote.pushdefault`, failing (with the pushdefault lookup's error) only when
all three are absent; `Git::upstream` consults only the first two sources and
is insensitive to `remote.pushdefault`, so a branch covered solely by
`remote.pushdefault` passes the remote filter yet is classified through the
no-upstream half of the table. -/
theorem c9_remote_pushdefault_contrast (g g' : GitState) (b : Branch) :
    (∀ n, g.branchUpstreamRemote b.name = some n → Git.remote g b = g.findRemote n) ∧
    (∀ n, g.branchUpstreamRemote b.name = none → g.pushremote b.name = .ok n →
      Git.remote g b = g.findRemote n) ∧
    (∀ e n, g.branchUpstreamRemote b.name = none → g.pushremote b.name = .error e →
      g.pushdefault = .ok n → Git.remote g b = g.findRemote n) ∧
    (∀ e e2, g.branchUpstreamRemote b.name = none → g.pushremote b.name = .error e →
      g.pushdefault = .error e2 → Git.remote g b = .error e2) ∧
    (g.upstreamOf = g'.upstreamOf → g.pushremote = g'.pushremote →
      g.findRemoteBranch = g'.findRemoteBranch → Git.upstream g b = Git.upstream g' b) ∧
    (∀ n r cur rdb odb, g.upstreamOf b.name = none →
      g.pushremote b.name = .error ⟨.Config, .NotFound⟩ →
      g.branchUpstreamRemote b.name = none → g.pushdefault = .ok n →
      g.findRemote n = .ok r →
      Git.remote g b = .ok r ∧
      ∃ a, find_branch_action g b cur rdb odb = .ok a ∧
        (a = .CheckoutAndDelete ∨ a = .NoDefault ∨ a = .Delete ∨ a = .Unmerged)) := by
  refine ⟨?_, ?_, ?_, ?_, ?_, ?_⟩
  · intro n hn
    simp [Git.remote, hn]
  · intro n h1 h2
    simp [Git.remote, h1, h2]
  · intro e n h1 h2 h3
    simp [Git.remote, h1, h2, h3]
  · intro e e2 h1 h2 h3
    simp [Git.remote, h1, h2, h3]
  · intro h1 h2 h3
    simp only [Git.upstream, h1, h2, h3]
  · intro n r cur rdb odb h1 h2 h3 h4 h5
    have hup : Git.upstream g b = .error ⟨.Config, .NotFound⟩ := by
      simp [Git.upstream, h1, h2]
    refine ⟨by simp [Git.remote, h3, h2, h4, h5], ?_⟩
    exact find_action_error_four g b cur rdb odb ⟨.Config, .NotFound⟩ hup (Or.inr ⟨rfl, rfl⟩)

theorem c9_witness :
    Git.remote exGit ⟨"zed", 3⟩ = .ok ⟨"origin"⟩ ∧
    find_branch_action exGit ⟨"zed", 3⟩ ⟨"other", 1⟩ ⟨"origin/master", 5⟩ none =
      .ok .Delete := by
  have h := (c9_remote_pushdefault_contrast exGit exGit ⟨"zed", 3⟩).2.2.2.2.2
    "origin" ⟨"origin"⟩ ⟨"other", 1⟩ ⟨"origin/master", 5⟩ none rfl rfl rfl rfl rfl
  refine ⟨h.1, ?_⟩
  obtain ⟨a, ha, _⟩ := h.2
  have hd : a = .Delete := by
    have := ha.symm.trans (rfl : find_branch_action exGit ⟨"zed", 3⟩ ⟨"other", 1⟩
      ⟨"origin/master", 5⟩ none = .ok .Delete)
    exact (Except.ok.injEq _ _).mp this
  exact hd ▸ ha

/-- C10 (implicit): the current-branch test compares branch handles by
(byte-)equality of their names only: it succeeds for equal names whatever the
tips and fails for different names whatever the tips, and the classifier's
result is insensitive to the current branch's tip. -/
theorem c10_branch_same_by_name_only (b1 b2 : Branch) (g : GitState)
    (b cur cur' rdb : Branch) (odb : Option Branch) (hname : cur.name = cur'.name) :
    (is_branch_same b1 b2 = true ↔ b1.name = b2.name) ∧
    (∀ t1 t2, is_branch_same ⟨b1.name, t1⟩ ⟨b2.name, t2⟩ = is_branch_same b1 b2) ∧
    find_branch_action g b cur rdb odb = find_branch_action g b cur' rdb odb := by
  refine ⟨?_, fun t1 t2 => rfl, ?_⟩
  · simp [is_branch_same]
  · simp only [find_branch_action, is_branch_same, hname]

theorem c10_witness :
    is_branch_same ⟨"alpha", 1⟩ ⟨"alpha", 2⟩ = true ∧
    is_branch_same ⟨"alpha", 1⟩ ⟨"beta", 1⟩ = false ∧
    find_branch_action exGit ⟨"topic", 3⟩ ⟨"topic", 11⟩ ⟨"origin/master", 9⟩ none =
      find_branch_action exGit ⟨"topic", 3⟩ ⟨"topic", 42⟩ ⟨"origin/master", 9⟩ none := by
  refine ⟨?_, by decide, ?_⟩
  · exact (c10_branch_same_by_name_only ⟨"alpha", 1⟩ ⟨"alpha", 2⟩ exGit
      ⟨"topic", 3⟩ ⟨"topic", 11⟩ ⟨"topic", 42⟩ ⟨"origin/master", 9⟩ none rfl).1.mpr rfl
  · exact (c10_branch_same_by_name_only ⟨"alpha", 1⟩ ⟨"alpha", 2⟩ exGit
      ⟨"topic", 3⟩ ⟨"topic", 11⟩ ⟨"topic", 42⟩ ⟨"origin/master", 9⟩ none rfl).2.2

/-- C6: default-remote resolution returns the single configured remote when
exactly one exists; otherwise it falls back to the remote of the currently
checked-out branch (propagating that resolution's failure as the error). -/
theorem c6_default_remote_resolution (g : GitState) (repo : RepoState) :
    (∀ n r, g.remotes = [n] → g.findRemote n = .ok r →
      find_default_remote g repo = .ok r) ∧
    (g.remotes.length ≠ 1 →
      find_default_remote g repo =
        match Git.current_branch repo with
        | .ok b => Git.remote g b
        | .error e => .error e) := by
  constructor
  · intro n r h1 h2
    simp [find_default_remote, Git.only_one_remote, h1, h2]
  · intro hlen
    have hone : Git.only_one_remote g = .ok none := by
      unfold Git.only_one_remote
      match hr : g.remotes with
      | [] => rfl
      | [n] => exact absurd (hr ▸ rfl : g.remotes.length = 1) hlen
      | n :: m :: rest => rfl
    simp only [find_default_remote, hone]
    cases Git.current_branch repo <;> rfl

theorem c6_witness :
    find_default_remote exGit exRepo = .ok ⟨"origin"⟩ ∧
    exGitMulti.remotes.length ≠ 1 ∧
    find_default_remote exGitMulti exRepo = .ok ⟨"origin"⟩ := by
  refine ⟨?_, by decide, ?_⟩
  · exact (c6_default_remote_resolution exGit exRepo).1 "origin" ⟨"origin"⟩ rfl rfl
  · exact ((c6_default_remote_resolution exGitMulti exRepo).2 (by decide)).trans rfl

/-! ## Association-list lemmas for the repository state -/

theorem lookupTip_deleteTip_self (l : List (String × Oid)) (n : String) :
    lookupTip (deleteTip l n) n = none := by
  induction l with
  | nil => rfl
  | cons p rest ih =>
    by_cases h : p.1 = n
    · simpa [deleteTip, h] using ih
    · simpa [deleteTip, lookupTip, h] using ih

theorem lookupTip_deleteTip_ne (l : List (String × Oid)) (n m : String) (h : m ≠ n) :
    lookupTip (deleteTip l n) m = lookupTip l m := by
  induction l with
  | nil => rfl
  | cons p rest ih =>
    by_cases hp : p.1 = n
    · have hpm : p.1 ≠ m := fun hm => h (hm ▸ hp ▸ rfl)
      simp [deleteTip, lookupTip, hp, hpm, h, Ne.symm h, ih]
    · by_cases hm : p.1 = m <;>
        simp [deleteTip, lookupTip, hp, hm, h, Ne.symm h, ih]

theorem lookupTip_setTipList_self (l : List (String × Oid)) (n : String) (o x : Oid)
    (h : lookupTip l n = some x) :
    lookupTip (setTipList l n o) n = some o := by
  induction l with
  | nil => simp [lookupTip] at h
  | cons p rest ih =>
    by_cases hp : p.1 = n
    · simp [setTipList, lookupTip, hp]
    · simp only [lookupTip, hp, if_false, setTipList] at h ⊢
      exact ih h

theorem lookupTip_setTipList_ne (l : List (String × Oid)) (n m : String) (o : Oid)
    (h : m ≠ n) :
    lookupTip (setTipList l n o) m = lookupTip l m := by
  induction l with
  | nil => rfl
  | cons p rest ih =>
    by_cases hp : p.1 = n
    · have hpm : p.1 ≠ m := fun hm => h (hm ▸ hp ▸ rfl)
      simp [setTipList, lookupTip, hp, hpm, h, Ne.symm h]
    · by_cases hm : p.1 = m <;>
        simp [setTipList, lookupTip, hp, hm, h, Ne.symm h, ih]

/-! ## Claims about the orchestrator loop body -/

/-- Once the stored default-branch candidate is `none`, no loop step ever
re-creates it: the candidate is only ever consumed or refreshed, never
invented. -/
theorem hubsync_step_candidate_none (g : GitState) (dr : Remote) (ar : Option Remote)
    (rdb : Branch) (st st' : OrchState) (b : Branch)
    (h : hubsync_step g dr ar rdb st b = .ok st')
    (hnone : st.odefault_branch = none) :
    st'.odefault_branch = none := by
  unfold hubsync_step at h
  cases hrem : Git.remote g b with
  | error e =>
    rw [hrem] at h
    dsimp only at h
    split at h
    · cases h; exact hnone
    · cases h
  | ok r =>
    rw [hrem] at h
    dsimp only at h
    split at h
    case isFalse => cases h; exact hnone
    case isTrue =>
      cases hact : find_branch_action g b st.current_branch rdb st.odefault_branch with
      | error e => rw [hact] at h; cases h
      | ok a =>
        rw [hact, hnone] at h
        dsimp only at h
        cases a with
        | UpToDate => cases h; exact hnone
        | Unpushed => cases h; exact hnone
        | Unmerged => cases h; exact hnone
        | NoDefault => cases h; exact hnone
        | Delete => cases h; rfl
        | Merge u oid => cases h; rfl
        | UpdateRef u oid => cases h; rfl
        | CheckoutAndDelete => cases h; rfl

/-- C7: in the loop, a branch whose remote resolution fails with a
configuration-not-found error is skipped with no state change; any other
remote-resolution error aborts the run; a branch whose resolved remote passes
neither the default-remote nor the alternate-remote comparison is skipped with
no state change.  The last conjunct interprets the filter. -/
theorem c7_branch_remote_skip_or_abort (g : GitState) (dr : Remote) (ar : Option Remote)
    (rdb : Branch) (st : OrchState) (b : Branch) :
    (∀ e, Git.remote g b = .error e → e.cls = .Config → e.code = .NotFound →
      hubsync_step g dr ar rdb st b = .ok st) ∧
    (∀ e, Git.remote g b = .error e → ¬(e.cls = .Config ∧ e.code = .NotFound) →
      hubsync_step g dr ar rdb st b = .error e) ∧
    (∀ r, Git.remote g b = .ok r → passFilter dr ar r = false →
      hubsync_step g dr ar rdb st b = .ok st) ∧
    (∀ r, passFilter dr ar r = false ↔
      (r.name ≠ dr.name ∧ ∀ a, ar = some a → r.name ≠ a.name)) ∧
    (∀ e bs2, Git.remote g b = .error e → ¬(e.cls = .Config ∧ e.code = .NotFound) →
      hubsync_loop g dr ar rdb (b :: bs2) st = .error e) := by
  refine ⟨?_, ?_, ?_, ?_, ?_⟩
  · intro e he hc hcode
    unfold hubsync_step
    rw [he]
    dsimp only
    rw [if_pos ⟨hc, hcode⟩]
  · intro e he hne
    unfold hubsync_step
    rw [he]
    dsimp only
    rw [if_neg hne]
  · intro r hr hpf
    unfold hubsync_step
    rw [hr]
    dsimp only
    rw [if_neg]
    simp [hpf]
  · intro r
    cases ar with
    | none => simp [passFilter]
    | some a => simp [passFilter, not_or]
  · intro e bs2 he hne
    have hstep : hubsync_step g dr ar rdb st b = .error e := by
      unfold hubsync_step
      rw [he]
      dsimp only
      rw [if_neg hne]
    unfold hubsync_loop
    rw [hstep]

theorem c7_witness :
    hubsync_step { exGit with pushdefault := .error ⟨.Config, .NotFound⟩ } ⟨"origin"⟩ none
      ⟨"origin/master", 5⟩ ⟨⟨[], "x"⟩, ⟨"x", 0⟩, none⟩ ⟨"zed", 3⟩ =
      .ok ⟨⟨[], "x"⟩, ⟨"x", 0⟩, none⟩ ∧
    hubsync_step { exGit with pushdefault := .error ⟨.Net, .GenericError⟩ } ⟨"origin"⟩ none
      ⟨"origin/master", 5⟩ ⟨⟨[], "x"⟩, ⟨"x", 0⟩, none⟩ ⟨"zed", 3⟩ =
      .error ⟨.Net, .GenericError⟩ ∧
    hubsync_step exGit ⟨"github"⟩ none
      ⟨"origin/master", 5⟩ ⟨⟨[], "x"⟩, ⟨"x", 0⟩, none⟩ ⟨"zed", 3⟩ =
      .ok ⟨⟨[], "x"⟩, ⟨"x", 0⟩, none⟩ := by
  refine ⟨?_, ?_, ?_⟩
  · exact (c7_branch_remote_skip_or_abort
      { exGit with pushdefault := .error ⟨.Config, .NotFound⟩ } ⟨"origin"⟩ none
      ⟨"origin/master", 5⟩ ⟨⟨[], "x"⟩, ⟨"x", 0⟩, none⟩ ⟨"zed", 3⟩).1
      ⟨.Config, .NotFound⟩ rfl rfl rfl
  · exact (c7_branch_remote_skip_or_abort
      { exGit with pushdefault := .error ⟨.Net, .GenericError⟩ } ⟨"origin"⟩ none
      ⟨"origin/master", 5⟩ ⟨⟨[], "x"⟩, ⟨"x", 0⟩, none⟩ ⟨"zed", 3⟩).2.1
      ⟨.Net, .GenericError⟩ rfl (by simp)
  · exact (c7_branch_remote_skip_or_abort exGit ⟨"github"⟩ none
      ⟨"origin/master", 5⟩ ⟨⟨[], "x"⟩, ⟨"x", 0⟩, none⟩ ⟨"zed", 3⟩).2.2.1
      ⟨"origin"⟩ rfl rfl

/-- C5: executing `CheckoutAndDelete` clears the stored default-branch
candidate, switches both the live current-branch state and HEAD to that
candidate, and deletes the branch; executing `UpdateRef` on a branch that is
the stored candidate (same name) replaces the candidate with the post-update
handle returned by `Git::update_ref`, whose tip is the upstream tip; and once
the candidate is `none`, no later loop step re-creates it, so a consumed
candidate is never offered to a later iteration. -/
theorem c5_candidate_bookkeeping (g : GitState) (dr : Remote) (ar : Option Remote)
    (rdb : Branch) (st : OrchState) (b : Branch) (r : Remote)
    (hrem : Git.remote g b = .ok r) (hpass : passFilter dr ar r = true) :
    (∀ db, st.odefault_branch = some db →
      find_branch_action g b st.current_branch rdb st.odefault_branch = .ok .CheckoutAndDelete →
      hubsync_step g dr ar rdb st b =
        .ok ⟨(st.repo.checkout db.name).deleteBranch b.name, db, none⟩ ∧
      ((st.repo.checkout db.name).deleteBranch b.name).head = db.name ∧
      ((st.repo.checkout db.name).deleteBranch b.name).lookup b.name = none) ∧
    (∀ db u oid, st.odefault_branch = some db → is_branch_same b db = true →
      find_branch_action g b st.current_branch rdb st.odefault_branch = .ok (.UpdateRef u oid) →
      hubsync_step g dr ar rdb st b =
        .ok ⟨(Git.update_ref st.repo b u).1, st.current_branch,
             some (Git.update_ref st.repo b u).2⟩ ∧
      (Git.update_ref st.repo b u).2 = ⟨b.name, u.tip⟩) ∧
    (∀ b' st2, st.odefault_branch = none →
      hubsync_step g dr ar rdb st b' = .ok st2 → st2.odefault_branch = none) := by
  refine ⟨?_, ?_, fun b' st2 hnone h =>
    hubsync_step_candidate_none g dr ar rdb st st2 b' h hnone⟩
  · intro db hdb hact
    refine ⟨?_, rfl, lookupTip_deleteTip_self _ _⟩
    unfold hubsync_step
    rw [hrem]
    dsimp only
    rw [if_pos hpass, hact]
    dsimp only
    rw [hdb]
  · intro db u oid hdb hsame hact
    refine ⟨?_, rfl⟩
    unfold hubsync_step
    rw [hrem]
    dsimp only
    rw [if_pos hpass, hact]
    dsimp only
    rw [hdb]
    dsimp only
    rw [hsame]
    rfl

theorem c5_witness :
    hubsync_step exGit ⟨"origin"⟩ none ⟨"origin/master", 5⟩
      ⟨⟨[("zed", 3), ("master", 4)], "zed"⟩, ⟨"zed", 3⟩, some ⟨"master", 4⟩⟩ ⟨"zed", 3⟩ =
      .ok ⟨⟨[("master", 4)], "master"⟩, ⟨"master", 4⟩, none⟩ ∧
    hubsync_step exGit ⟨"origin"⟩ none ⟨"origin/master", 9⟩
      ⟨⟨[("topic", 3), ("master", 4)], "master"⟩, ⟨"master", 4⟩, some ⟨"topic", 3⟩⟩ ⟨"topic", 3⟩ =
      .ok ⟨⟨[("topic", 5), ("master", 4)], "master"⟩, ⟨"master", 4⟩, some ⟨"topic", 5⟩⟩ := by
  constructor
  · exact (((c5_candidate_bookkeeping exGit ⟨"origin"⟩ none ⟨"origin/master", 5⟩
      ⟨⟨[("zed", 3), ("master", 4)], "zed"⟩, ⟨"zed", 3⟩, some ⟨"master", 4⟩⟩ ⟨"zed", 3⟩
      ⟨"origin"⟩ rfl rfl).1 ⟨"master", 4⟩ rfl rfl).1).trans rfl
  · exact (((c5_candidate_bookkeeping exGit ⟨"origin"⟩ none ⟨"origin/master", 9⟩
      ⟨⟨[("topic", 3), ("master", 4)], "master"⟩, ⟨"master", 4⟩, some ⟨"topic", 3⟩⟩ ⟨"topic", 3⟩
      ⟨"origin"⟩ rfl rfl).2.1 ⟨"topic", 3⟩ ⟨"origin/topic", 5⟩ 3 rfl rfl rfl).1).trans rfl

/-! ## Effect of a loop step on the repository (helper lemmas for C8) -/

/-- A loop step only ever touches the ref of the branch it processes: every
other name's lookup is unchanged. -/
theorem hubsync_step_lookup_other (g : GitState) (dr : Remote) (ar : Option Remote)
    (rdb : Branch) (st st' : OrchState) (b : Branch)
    (h : hubsync_step g dr ar rdb st b = .ok st') (n : String) (hn : n ≠ b.name) :
    st'.repo.lookup n = st.repo.lookup n := by
  unfold hubsync_step at h
  cases hrem : Git.remote g b with
  | error e =>
    rw [hrem] at h
    dsimp only at h
    split at h
    · cases h
      rfl
    · cases h
  | ok r =>
    rw [hrem] at h
    dsimp only at h
    split at h
    case isFalse => cases h; rfl
    case isTrue hpf =>
      cases hact : find_branch_action g b st.current_branch rdb st.odefault_branch with
      | error e => rw [hact] at h; cases h
      | ok a =>
        rw [hact] at h
        dsimp only at h
        cases a with
        | UpToDate => cases h; rfl
        | Unpushed => cases h; rfl
        | Unmerged => cases h; rfl
        | NoDefault => cases h; rfl
        | Merge u oid =>
          cases h
          simpa [RepoState.lookup, Git.fastforward, Git.update_ref, RepoState.setTip] using
            lookupTip_setTipList_ne st.repo.tips b.name n u.tip hn
        | UpdateRef u oid =>
          cases h
          simpa [RepoState.lookup, Git.update_ref, RepoState.setTip] using
            lookupTip_setTipList_ne st.repo.tips b.name n u.tip hn
        | Delete =>
          cases h
          simpa [RepoState.lookup, RepoState.deleteBranch] using
            lookupTip_deleteTip_ne st.repo.tips b.name n hn
        | CheckoutAndDelete =>
          cases hdb : st.odefault_branch with
          | some db =>
            rw [hdb] at h
            cases h
            simpa [RepoState.lookup, RepoState.deleteBranch, RepoState.checkout] using
              lookupTip_deleteTip_ne st.repo.tips b.name n hn
          | none =>
            rw [hdb] at h
            cases h
            simpa [RepoState.lookup, RepoState.deleteBranch] using
              lookupTip_deleteTip_ne st.repo.tips b.name n hn

/-- A whole loop leaves alone the lookup of any name that is not among the
processed branches. -/
theorem hubsync_loop_lookup_other (g : GitState) (dr : Remote) (ar : Option Remote)
    (rdb : Branch) (bs : List Branch) :
    ∀ (st st1 : OrchState), hubsync_loop g dr ar rdb bs st = .ok st1 →
      ∀ n, (∀ b ∈ bs, b.name ≠ n) → st1.repo.lookup n = st.repo.lookup n := by
  induction bs with
  | nil =>
    intro st st1 hrun n _
    unfold hubsync_loop at hrun
    cases hrun
    rfl
  | cons b bs ih =>
    intro st st1 hrun n hnot
    unfold hubsync_loop at hrun
    cases hstep : hubsync_step g dr ar rdb st b with
    | error e => rw [hstep] at hrun; cases hrun
    | ok st2 =>
      rw [hstep] at hrun
      dsimp only at hrun
      have h1 := ih st2 st1 hrun n (fun b' hb' => hnot b' (List.mem_cons_of_mem _ hb'))
      have h2 := hubsync_step_lookup_other g dr ar rdb st st2 b hstep n
        (fun hEq => hnot b (List.mem_cons_self _ _) hEq.symm)
      rw [h1, h2]

/-- After its own loop step, a branch that passed the remote filter and whose
upstream link resolves is left either at the upstream tip or at a tip that is
not an ancestor of the upstream tip. -/
theorem hubsync_step_self_upstream (g : GitState) (dr : Remote) (ar : Option Remote)
    (rdb : Branch) (st st' : OrchState) (b : Branch)
    (h : hubsync_step g dr ar rdb st b = .ok st')
    (hpres : st.repo.lookup b.name = some b.tip)
    (o : Oid) (ho : st'.repo.lookup b.name = some o)
    (r : Remote) (hrem : Git.remote g b = .ok r) (hpass : passFilter dr ar r = true)
    (u : Branch) (hup : Git.upstream g b = .ok u) :
    o = u.tip ∨ g.descendantOf u.tip o = false := by
  unfold hubsync_step at h
  rw [hrem] at h
  dsimp only at h
  rw [if_pos hpass,
      find_action_ok_eq g b st.current_branch rdb st.odefault_branch u hup] at h
  by_cases hid : (b.tip == u.tip) = true
  · rw [if_pos hid] at h
    dsimp only at h
    cases h
    rw [hpres] at ho
    left
    cases ho
    exact beq_iff_eq.mp hid
  · rw [if_neg hid] at h
    by_cases hanc : g.descendantOf u.tip b.tip = true
    · rw [if_pos hanc] at h
      by_cases hsame : is_branch_same b st.current_branch = true
      · rw [if_pos hsame] at h
        dsimp only at h
        cases h
        have : (st.repo.setTip b.name u.tip).lookup b.name = some u.tip :=
          lookupTip_setTipList_self st.repo.tips b.name u.tip b.tip hpres
        rw [show (Git.fastforward st.repo b u) = st.repo.setTip b.name u.tip from rfl] at ho
        rw [this] at ho
        left
        exact ((Option.some.injEq _ _).mp ho).symm
      · rw [if_neg hsame] at h
        dsimp only at h
        cases h
        have : (st.repo.setTip b.name u.tip).lookup b.name = some u.tip :=
          lookupTip_setTipList_self st.repo.tips b.name u.tip b.tip hpres
        rw [show ((Git.update_ref st.repo b u).1) = st.repo.setTip b.name u.tip from rfl] at ho
        rw [this] at ho
        left
        exact ((Option.some.injEq _ _).mp ho).symm
    · rw [if_neg hanc] at h
      dsimp only at h
      cases h
      rw [hpres] at ho
      right
      have ho' : o = b.tip := ((Option.some.injEq _ _).mp ho).symm
      rw [ho']
      exact Bool.not_eq_true _ |>.mp hanc

/-- The run-1 loop invariant: every branch that was in the processed list,
survives in the final repository, passes the remote filter and has a
resolvable upstream ends at the upstream tip or at a tip that is not an
ancestor of the upstream tip. -/
theorem hubsync_loop_good (g : GitState) (dr : Remote) (ar : Option Remote)
    (rdb : Branch) (bs : List Branch) :
    ∀ (st st1 : OrchState),
      hubsync_loop g dr ar rdb bs st = .ok st1 →
      (∀ b ∈ bs, st.repo.lookup b.name = some b.tip) →
      (bs.map Branch.name).Nodup →
      ∀ n o, st1.repo.lookup n = some o → (∃ b ∈ bs, b.name = n) →
        ∀ r, Git.remote g ⟨n, o⟩ = .ok r → passFilter dr ar r = true →
          ∀ u, Git.upstream g ⟨n, o⟩ = .ok u →
            o = u.tip ∨ g.descendantOf u.tip o = false := by
  induction bs with
  | nil =>
    intro st st1 _ _ _ n o _ hin
    simp at hin
  | cons b bs ih =>
    intro st st1 hrun hfresh hnodup n o ho hin r hrem hpass u hup
    unfold hubsync_loop at hrun
    cases hstep : hubsync_step g dr ar rdb st b with
    | error e => rw [hstep] at hrun; cases hrun
    | ok st2 =>
      rw [hstep] at hrun
      dsimp only at hrun
      have hnodup' : (bs.map Branch.name).Nodup := (List.nodup_cons.mp hnodup).2
      have hbnotin : b.name ∉ bs.map Branch.name := (List.nodup_cons.mp hnodup).1
      have hfresh' : ∀ b' ∈ bs, st2.repo.lookup b'.name = some b'.tip := by
        intro b' hb'
        have hne : b'.name ≠ b.name := fun hEq =>
          hbnotin (hEq ▸ List.mem_map_of_mem Branch.name hb')
        rw [hubsync_step_lookup_other g dr ar rdb st st2 b hstep b'.name hne]
        exact hfresh b' (List.mem_cons_of_mem _ hb')
      rcases hin with ⟨b'', hb'', hname⟩
      rcases List.mem_cons.mp hb'' with hb0 | hbs
      · subst hb0
        subst hname
        have hnot : ∀ c ∈ bs, c.name ≠ b''.name := fun c hc hEq =>
          hbnotin (hEq ▸ List.mem_map_of_mem Branch.name hc)
        have hpersist := hubsync_loop_lookup_other g dr ar rdb bs st2 st1 hrun b''.name hnot
        rw [hpersist] at ho
        have hrem' : Git.remote g b'' = .ok r :=
          (Git.remote_name_only g b'' ⟨b''.name, o⟩ rfl).trans hrem
        have hup' : Git.upstream g b'' = .ok u :=
          (Git.upstream_name_only g b'' ⟨b''.name, o⟩ rfl).trans hup
        exact hubsync_step_self_upstream g dr ar rdb st st2 b'' hstep
          (hfresh b'' (List.mem_cons_self _ _)) o ho r hrem' hpass u hup'
      · exact ih st2 st1 hrun hfresh' hnodup' n o ho ⟨b'', hbs, hname⟩ r hrem hpass u hup

/-! ## C8: idempotence -/

/-- C8 (amended): after a completed loop pass over branch handles with
pairwise-distinct names snapshotted from the starting repository, every
surviving branch that was in the processed list, passes the (unchanged) remote
filter and has a resolvable upstream link is classified `UpToDate` or
`Unpushed` by a second pass — both non-mutating — whatever current branch,
remote default branch and candidate the second pass uses.  (Branches without a
resolvable upstream link are NOT covered: the second run can re-classify the
checked-out upstream-less branch as `CheckoutAndDelete` when the candidate is
rediscovered, see the counterexample.) -/
theorem c8_second_run_upstream_no_action (g : GitState) (dr : Remote)
    (ar : Option Remote) (rdb : Branch) (bs : List Branch) (st st1 : OrchState)
    (hrun : hubsync_loop g dr ar rdb bs st = .ok st1)
    (hfresh : ∀ b ∈ bs, st.repo.lookup b.name = some b.tip)
    (hnodup : (bs.map Branch.name).Nodup)
    (n : String) (o : Oid) (ho : st1.repo.lookup n = some o)
    (hin : ∃ b ∈ bs, b.name = n)
    (r : Remote) (hrem : Git.remote g ⟨n, o⟩ = .ok r)
    (hpass : passFilter dr ar r = true)
    (u : Branch) (hup : Git.upstream g ⟨n, o⟩ = .ok u) :
    ∀ cur2 rdb2 odb2,
      find_branch_action g ⟨n, o⟩ cur2 rdb2 odb2 = .ok .UpToDate ∨
      find_branch_action g ⟨n, o⟩ cur2 rdb2 odb2 = .ok .Unpushed := by
  intro cur2 rdb2 odb2
  have hgood := hubsync_loop_good g dr ar rdb bs st st1 hrun hfresh hnodup
    n o ho hin r hrem hpass u hup
  rw [find_action_ok_eq g ⟨n, o⟩ cur2 rdb2 odb2 u hup]
  rcases hgood with heq | hanc
  · left
    simp [heq]
  · by_cases hid : o = u.tip
    · left
      simp [hid]
    · right
      simp only [show (⟨n, o⟩ : Branch).tip = o from rfl]
      rw [if_neg (by simp [hid]), if_neg (by simp [hanc])]

theorem c8_second_run_upstream_no_action_witness :
    hubsync_loop exGit ⟨"origin"⟩ none ⟨"origin/master", 9⟩ [⟨"topic", 3⟩]
        ⟨⟨[("topic", 3)], "topic"⟩, ⟨"topic", 3⟩, none⟩ =
      .ok ⟨⟨[("topic", 5)], "topic"⟩, ⟨"topic", 3⟩, none⟩ ∧
    (find_branch_action exGit ⟨"topic", 5⟩ ⟨"topic", 5⟩ ⟨"origin/master", 9⟩ none =
        .ok .UpToDate ∨
      find_branch_action exGit ⟨"topic", 5⟩ ⟨"topic", 5⟩ ⟨"origin/master", 9⟩ none =
        .ok .Unpushed) := by
  refine ⟨rfl, ?_⟩
  exact c8_second_run_upstream_no_action exGit ⟨"origin"⟩ none ⟨"origin/master", 9⟩
    [⟨"topic", 3⟩] ⟨⟨[("topic", 3)], "topic"⟩, ⟨"topic", 3⟩, none⟩
    ⟨⟨[("topic", 5)], "topic"⟩, ⟨"topic", 3⟩, none⟩ rfl
    (by intro b hb; rw [List.mem_singleton.mp hb]; rfl) (by simp)
    "topic" 5 rfl ⟨⟨"topic", 3⟩, List.mem_singleton.mpr rfl, rfl⟩
    ⟨"origin"⟩ rfl rfl ⟨"origin/topic", 5⟩ rfl ⟨"topic", 5⟩ ⟨"origin/master", 9⟩ none

/-- The configuration of the idempotence counterexample: one remote `origin`
whose advertised default branch is `main`; local `main` has no upstream link
(it is only covered by `remote.pushdefault`); local `feature` was deleted on
the remote and is merged (its tip 1 is an ancestor of `origin/main`'s tip 2);
`main` itself is one commit behind `origin/main`. -/
def c8Git : GitState where
  upstreamOf := fun _ => none
  pushremote := fun _ => .error ⟨.Config, .NotFound⟩
  findRemoteBranch := fun n =>
    if n = "origin/main" then .ok ⟨"origin/main", 2⟩ else .error ⟨.Reference, .NotFound⟩
  branchUpstreamRemote := fun n => if n = "feature" then some "origin" else none
  pushdefault := .ok "origin"
  remotes := ["origin"]
  findRemote := fun n => if n = "origin" then .ok ⟨"origin"⟩ else .error ⟨.Config, .NotFound⟩
  descendantOf := fun a b => a == 2 && b == 1
  remoteDefaultRef := fun _ => .ok "refs/heads/main"

def c8Repo : RepoState :=
  ⟨[("feature", 1), ("main", 1)], "feature"⟩

/-- C8 (counterexample): the state reached by a completed run is not a fixed
point.  The first run checks out the candidate `main` found by the
`main`/`master` fallback, deletes `feature`, and ends with `main` classified
`NoDefault` (candidate consumed).  A second run over the resulting repository,
with no change to the remote state, rediscovers `main` as the candidate,
classifies the surviving branch `main` as `CheckoutAndDelete` — not
`UpToDate` — and deletes it, so the second run is not a no-op. -/
theorem c8_not_idempotent_counterexample :
    hubsync c8Git c8Repo = .ok ⟨[("main", 1)], "main"⟩ ∧
    hubsync c8Git ⟨[("main", 1)], "main"⟩ = .ok ⟨[], "main"⟩ ∧
    find_branch_action c8Git ⟨"main", 1⟩ ⟨"main", 1⟩ ⟨"origin/main", 2⟩
      (some ⟨"main", 1⟩) = .ok .CheckoutAndDelete ∧
    (⟨[], "main"⟩ : RepoState) ≠ ⟨[("main", 1)], "main"⟩ :=
  ⟨rfl, rfl, rfl, by decide⟩

end Hubsync
